import Mathlib

/-!
Shallow embedding of the hazelcast-nodejs-client core under verification:
the Ringbuffer proxy argument validation, the AtomicLongAlter codec request
encoding, the CP-subsystem base proxy, and the Listener Service state
machine (registration tracking tables, reregistration on connection-added,
removal on connection-removed, and deregistration with best-effort remote
cleanup).  Asynchronous continuations of the TypeScript source are embedded
as explicit atomic state-transition functions; the interleaving of the
single-threaded event loop is modelled by composing those functions in
either order.  An append-only event log records the observable actions
(table deletions, event-handler removals, remote invocations) in execution
order.
-/

set_option autoImplicit false

/-! ## Ringbuffer proxy: `readMany` argument validation
Source: src/proxy/ringbuffer/RingbufferProxy.ts, lines 106-126. -/

/-- The network invocation that `readMany` would hand to `encodeInvoke`
once validation passes (sequence, minCount, maxCount as sent). -/
structure RBReadManyInvocation where
  sequence : Int
  minCount : Int
  maxCount : Int
deriving DecidableEq, Repr

namespace RingbufferProxy

/-- `RingbufferProxy.readMany` validation and dispatch: a `RangeError`
(`Except.error`) is returned before any invocation record is built.
Checks appear in source order: negative sequence, negative minCount,
minCount greater than maxCount. -/
def readMany (sequence : Int) (minCount : Int) (maxCount : Int) :
    Except String RBReadManyInvocation :=
  if sequence < 0 then
    Except.error ("Sequence number should not be less than zero, was: " ++ toString sequence)
  else if minCount < 0 then
    Except.error ("Min count should not be less than zero, was: " ++ toString sequence)
  else if minCount > maxCount then
    Except.error ("Min count " ++ toString minCount ++ "was larger than max count " ++ toString maxCount)
  else
    Except.ok ⟨sequence, minCount, maxCount⟩

end RingbufferProxy

/-! ## Message framing substrate for the codec layer -/

namespace BitsUtil

def INT_SIZE_IN_BYTES : Nat := 4

def BYTE_SIZE_IN_BYTES : Nat := 1

end BitsUtil

/-- Modelled from the spec: header field byte offsets are fixed constants
derived from a common initial-frame layout shared by all operations
(`ClientMessage.ts` is not part of the provided sources).  The partition id
follows the 4-byte message type and 8-byte correlation id. -/
def PARTITION_ID_OFFSET : Nat := 12

/-- Modelled from the spec: response backup-acks byte offset in the common
initial-frame layout (same position as the request partition id). -/
def RESPONSE_BACKUP_ACKS_OFFSET : Nat := 12

/-- One binary frame of a message: a flat byte payload region. -/
structure Frame where
  content : List Nat
deriving DecidableEq, Repr

/-- Modelled from the spec: `Frame.createInitialFrame` allocates a
zero-initialized content buffer of the given size. -/
def Frame.createInitialFrame (size : Nat) : Frame :=
  ⟨List.replicate size 0⟩

/-- Modelled from the spec: a Message is an ordered sequence of frames and
carries a retryable flag, a message type and a target partition id
(`-1` meaning any member).  The three header fields live in the initial
frame's header region in the source; they are modelled as fields here. -/
structure ClientMessage where
  frames : List Frame
  retryable : Bool
  messageType : Nat
  partitionId : Int
deriving DecidableEq, Repr

namespace ClientMessage

/-- Modelled from the spec: `createForEncode` produces an empty message
ready to accept frames. -/
def createForEncode : ClientMessage :=
  ⟨[], false, 0, -1⟩

def setRetryable (m : ClientMessage) (b : Bool) : ClientMessage :=
  { m with retryable := b }

def setMessageType (m : ClientMessage) (t : Nat) : ClientMessage :=
  { m with messageType := t }

def setPartitionId (m : ClientMessage) (p : Int) : ClientMessage :=
  { m with partitionId := p }

def addFrame (m : ClientMessage) (f : Frame) : ClientMessage :=
  { m with frames := m.frames ++ [f] }

end ClientMessage

namespace FixSizedTypesCodec

/-- Modelled from the spec: fixed-size codecs write multi-byte integers at a
fixed offset in a single consistent endianness (little-endian, 4 bytes). -/
def encodeInt (content : List Nat) (offset : Nat) (value : Nat) : List Nat :=
  (List.range 4).foldl (fun c i => c.set (offset + i) (value / 256 ^ i % 256)) content

end FixSizedTypesCodec

/-- Opaque serialized blob moved by the core without interpretation. -/
def Data : Type := List Nat

/-- Raft group identity used by CP-subsystem codecs. -/
structure RaftGroupId where
  name : String
  seed : Int
  groupId : Int
deriving DecidableEq, Repr

def encodeLongBytes (v : Int) : List Nat :=
  (List.range 8).map (fun i => (v % (2 ^ 64 : Int)).toNat / 256 ^ i % 256)

namespace StringCodec

/-- Modelled from the spec: variable-length values are length-prefixed and
appended as their own frame so they do not disturb fixed-offset header
fields. -/
def encode (m : ClientMessage) (s : String) : ClientMessage :=
  m.addFrame ⟨s.toList.map Char.toNat⟩

end StringCodec

namespace DataCodec

/-- Modelled from the spec: an opaque blob is appended as its own frame. -/
def encode (m : ClientMessage) (d : Data) : ClientMessage :=
  m.addFrame ⟨d⟩

end DataCodec

namespace RaftGroupIdCodec

/-- Modelled from the spec: a composite codec encodes its fields in a
fixed positional order by calling child codecs, appending frames. -/
def encode (m : ClientMessage) (g : RaftGroupId) : ClientMessage :=
  let m := StringCodec.encode m g.name
  let m := m.addFrame ⟨encodeLongBytes g.seed⟩
  m.addFrame ⟨encodeLongBytes g.groupId⟩

end RaftGroupIdCodec

/-! ## AtomicLongAlterCodec
Source: src/codec/AtomicLongAlterCodec.ts, lines 28-58. -/

namespace AtomicLongAlterCodec

/-- hex 0x090200. -/
def REQUEST_MESSAGE_TYPE : Nat := 590336

def REQUEST_RETURN_VALUE_TYPE_OFFSET : Nat :=
  PARTITION_ID_OFFSET + BitsUtil.INT_SIZE_IN_BYTES

def REQUEST_INITIAL_FRAME_SIZE : Nat :=
  REQUEST_RETURN_VALUE_TYPE_OFFSET + BitsUtil.INT_SIZE_IN_BYTES

/-- `AtomicLongAlterCodec.encodeRequest`: builds the request message,
marks it non-retryable, writes the return-value type into the initial
frame, sets the message type and the any-member partition id, then
appends the composite payload frames. -/
def encodeRequest (groupId : RaftGroupId) (name : String) (_function : Data)
    (returnValueType : Nat) : ClientMessage :=
  let clientMessage := ClientMessage.createForEncode
  let clientMessage := clientMessage.setRetryable false
  let initialFrame := Frame.createInitialFrame REQUEST_INITIAL_FRAME_SIZE
  let initialFrame : Frame :=
    ⟨FixSizedTypesCodec.encodeInt initialFrame.content REQUEST_RETURN_VALUE_TYPE_OFFSET returnValueType⟩
  let clientMessage := clientMessage.addFrame initialFrame
  let clientMessage := clientMessage.setMessageType REQUEST_MESSAGE_TYPE
  let clientMessage := clientMessage.setPartitionId (-1)
  let clientMessage := RaftGroupIdCodec.encode clientMessage groupId
  let clientMessage := StringCodec.encode clientMessage name
  DataCodec.encode clientMessage _function

end AtomicLongAlterCodec

/-! ## BaseCPProxy
Source: src/proxy/cpsubsystem/BaseCPProxy.ts, lines 27-61. -/

/-- Errors surfaced by CP-subsystem proxies. -/
inductive CPProxyError where
  | unsupportedOperation (msg : String)
deriving DecidableEq, Repr

/-- Common super class state for any CP Subsystem proxy. -/
structure BaseCPProxy where
  proxyName : String
  serviceName : String
deriving DecidableEq, Repr

namespace BaseCPProxy

/-- `BaseCPProxy.getPartitionKey`: unconditionally throws
`UnsupportedOperationError`. -/
def getPartitionKey (_p : BaseCPProxy) : Except CPProxyError String :=
  Except.error (CPProxyError.unsupportedOperation
    "This operation is not supported by CP Subsystem")

def getName (p : BaseCPProxy) : String :=
  p.proxyName

def getServiceName (p : BaseCPProxy) : String :=
  p.serviceName

end BaseCPProxy

/-! ## Listener Service
Source: src/unnamed/part_001 (ListenerService).  The tracking tables are
JavaScript insertion-ordered maps, embedded as association lists with
unique keys; `aset` updates in place or appends, `adelete` removes the
key.  The asynchronous continuations (`.then`/`.catch` callbacks) run
atomically on the single-threaded event loop and are embedded as separate
state-transition functions. -/

def alookup {κ α : Type} [DecidableEq κ] : List (κ × α) → κ → Option α
  | [], _ => none
  | p :: rest, k => if p.1 = k then some p.2 else alookup rest k

def aset {κ α : Type} [DecidableEq κ] : List (κ × α) → κ → α → List (κ × α)
  | [], k, v => [(k, v)]
  | p :: rest, k, v => if p.1 = k then (k, v) :: rest else p :: aset rest k v

def adelete {κ α : Type} [DecidableEq κ] (l : List (κ × α)) (k : κ) : List (κ × α) :=
  l.filter (fun p => decide (p.1 ≠ k))

/-- Modelled from the spec: a listener codec (ListenerMessageCodec is not
part of the provided sources) builds the add-request template and the
remove-request; `encodeRemoveRequest` yields `none` for listeners that
have no remote registration (e.g. backup acks). -/
structure ListenerMessageCodec where
  codecId : Nat
  addRequest : Nat
  hasRemoveRequest : Bool
deriving DecidableEq, Repr

namespace ListenerMessageCodec

/-- Modelled from the spec: encodes the register-request template. -/
def encodeAddRequest (c : ListenerMessageCodec) (_isSmart : Bool) : Nat :=
  c.addRequest

/-- Modelled from the spec: encodes the remove-request for a
server-assigned registration id; `none` means no remote registration. -/
def encodeRemoveRequest (c : ListenerMessageCodec) (serverRegistrationId : Nat) :
    Option (Nat × Nat) :=
  if c.hasRemoveRequest then some (c.codecId, serverRegistrationId) else none

end ListenerMessageCodec

/-- One physical materialization of a logical registration on one
connection (connections are identified by their id). -/
structure ClientEventRegistration where
  serverRegistrationId : Nat
  correlationId : Nat
  subscriber : Nat
  codec : ListenerMessageCodec
deriving DecidableEq, Repr

/-- Logical identity of one listener subscription. -/
structure RegistrationKey where
  userKey : String
  codec : ListenerMessageCodec
  registerRequest : Nat
  handlerId : Nat
deriving DecidableEq, Repr

/-- Observable actions of the Listener Service, recorded in execution
order in an append-only log. -/
inductive LAction where
  | deleteActive (userKey : String)
  | deleteUserKeyInfo (userKey : String)
  | removeEventHandler (correlationId : Nat)
  | removeAttempt (userKey : String) (reg : ClientEventRegistration)
  | invokeRemove (reg : ClientEventRegistration)
  | invokeRegister (userKey : String) (connId : Nat) (correlationId : Nat)
deriving DecidableEq, Repr

/-- Listener Service state: the two tracking tables, the correlation-id
counter of the Invocation Service, and the event log. -/
structure LSState where
  activeRegistrations : List (String × List (Nat × ClientEventRegistration))
  userKeyInformation : List (String × RegistrationKey)
  nextCorrelationId : Nat
  events : List LAction
deriving DecidableEq, Repr

/-- `InvocationService.removeEventHandler`: stop routing events for a
correlation id. -/
def removeEventHandler (s : LSState) (correlationId : Nat) : LSState :=
  { s with events := s.events ++ [LAction.removeEventHandler correlationId] }

/-- `ListenerService.deregisterListenerOnTarget` (part_001 lines 196-215):
encodes the remove-request; a null message causes no invocation, otherwise
the remove invocation is issued on the registration's subscriber
connection.  The call itself is recorded as a `removeAttempt`. -/
def deregisterListenerOnTarget (s : LSState) (userKey : String)
    (eventRegistration : ClientEventRegistration) : LSState :=
  let s1 : LSState := { s with events := s.events ++ [LAction.removeAttempt userKey eventRegistration] }
  match eventRegistration.codec.encodeRemoveRequest eventRegistration.serverRegistrationId with
  | none => s1
  | some _ => { s1 with events := s1.events ++ [LAction.invokeRemove eventRegistration] }

/-- The `registrationsOnUserKey.forEach` loop body of `deregisterListener`
(part_001 lines 180-186): per registration, remove the local event handler
then issue the remote removal. -/
def deregLoop (userKey : String) (s : LSState)
    (regs : List (Nat × ClientEventRegistration)) : LSState :=
  regs.foldl
    (fun st p => deregisterListenerOnTarget (removeEventHandler st p.2.correlationId) userKey p.2)
    s

/-- `ListenerService.deregisterListener` (part_001 lines 169-190): resolves
`false` when the userKey is unknown; otherwise deletes both table entries
first, then per remaining registration removes the handler and issues the
remote removal, and resolves `true`. -/
def deregisterListener (s : LSState) (userKey : String) : LSState × Bool :=
  match alookup s.activeRegistrations userKey with
  | none => (s, false)
  | some registrationsOnUserKey =>
    let s1 : LSState :=
      { s with
        activeRegistrations := adelete s.activeRegistrations userKey,
        userKeyInformation := adelete s.userKeyInformation userKey,
        events := s.events ++ [LAction.deleteActive userKey, LAction.deleteUserKeyInfo userKey] }
    (deregLoop userKey s1 registrationsOnUserKey, true)

/-- Synchronous outcome of `invokeRegistrationFromRecord` (part_001 lines
94-121): resolve immediately with the stored registration, or issue a
register invocation with a fresh correlation id; `lookupFailure` marks the
source dereferencing an absent `RegistrationKey`. -/
inductive RegInvokeSyncResult where
  | resolvedExisting (reg : ClientEventRegistration)
  | invocationIssued (correlationId : Nat)
  | lookupFailure
deriving DecidableEq, Repr

/-- Synchronous part of `ListenerService.invokeRegistrationFromRecord`. -/
def invokeRegistrationFromRecordSync (s : LSState) (userKey : String) (connId : Nat) :
    LSState × RegInvokeSyncResult :=
  match (alookup s.activeRegistrations userKey).bind (fun regs => alookup regs connId) with
  | some reg => (s, RegInvokeSyncResult.resolvedExisting reg)
  | none =>
    match alookup s.userKeyInformation userKey with
    | none => (s, RegInvokeSyncResult.lookupFailure)
    | some _ =>
      let cid := s.nextCorrelationId
      ({ s with
          nextCorrelationId := cid + 1,
          events := s.events ++ [LAction.invokeRegister userKey connId cid] },
       RegInvokeSyncResult.invocationIssued cid)

/-- The `.then` continuation inside `reregisterListenersOnConnection`
(part_001 lines 71-78): when the logical registration was deregistered
meanwhile (userKey gone from the user-key table) the new registration is
not stored and its remote removal is issued; otherwise it is stored in the
per-key map. -/
def reregisterCompletion (s : LSState) (userKey : String) (connId : Nat)
    (eventRegistration : ClientEventRegistration) : LSState :=
  match alookup s.userKeyInformation userKey with
  | none => deregisterListenerOnTarget s userKey eventRegistration
  | some _ =>
    match alookup s.activeRegistrations userKey with
    | some regs =>
      { s with activeRegistrations := aset s.activeRegistrations userKey (aset regs connId eventRegistration) }
    | none => s

/-- The `activeRegistrations.forEach` loop of
`reregisterListenersOnConnection` (part_001 lines 66-83): entries already
tracking the connection are skipped, the rest get a register invocation. -/
def reregisterLoop (connId : Nat) :
    LSState × List (String × RegInvokeSyncResult) →
    List (String × List (Nat × ClientEventRegistration)) →
    LSState × List (String × RegInvokeSyncResult)
  | acc, [] => acc
  | acc, p :: rest =>
    if (alookup p.2 connId).isSome then reregisterLoop connId acc rest
    else
      let r := invokeRegistrationFromRecordSync acc.1 p.1 connId
      reregisterLoop connId (r.1, acc.2 ++ [(p.1, r.2)]) rest

/-- Synchronous part of `ListenerService.reregisterListenersOnConnection`. -/
def reregisterListenersOnConnection (s : LSState) (connId : Nat) :
    LSState × List (String × RegInvokeSyncResult) :=
  reregisterLoop connId (s, []) s.activeRegistrations

/-- `ListenerService.removeRegistrationsOnConnection` (part_001 lines
85-92): for each logical registration holding a physical registration on
the removed connection, the event handler is removed; the per-connection
record itself is not deleted by this source. -/
def removeRegistrationsOnConnection (s : LSState) (connId : Nat) : LSState :=
  s.activeRegistrations.foldl
    (fun st p =>
      match alookup p.2 connId with
      | some eventRegistration => removeEventHandler st eventRegistration.correlationId
      | none => st)
    s

/-- Settlement state of the promise returned by `registerListener`
(`deferredPromise`): the first settlement wins. -/
inductive DeferredState where
  | pending
  | resolved (value : String)
  | rejected (msg : String)
deriving DecidableEq, Repr

def DeferredState.resolve (d : DeferredState) (v : String) : DeferredState :=
  match d with
  | DeferredState.pending => DeferredState.resolved v
  | _ => d

def DeferredState.reject (d : DeferredState) (msg : String) : DeferredState :=
  match d with
  | DeferredState.pending => DeferredState.rejected msg
  | _ => d

/-- One in-progress `registerListener` call: the service state, the fresh
userKey, the codec, the promise, the register invocations issued at call
time as (connId, correlationId), and the ghost list of connections whose
attempt has settled. -/
structure RegisterCall where
  state : LSState
  userKey : String
  codec : ListenerMessageCodec
  deferred : DeferredState
  issued : List (Nat × Nat)
  completedAttempts : List Nat
deriving DecidableEq, Repr

/-- The `for (const connection of activeConnections)` loop of
`registerListener` (part_001 lines 137-165): connections already present
in the per-key map are skipped, every other connection gets an urgent
register invocation with a fresh correlation id. -/
def registerLoop (userKey : String)
    (connectionsOnUserKey : List (Nat × ClientEventRegistration)) :
    LSState × List (Nat × Nat) → List Nat → LSState × List (Nat × Nat)
  | acc, [] => acc
  | acc, c :: rest =>
    if (alookup connectionsOnUserKey c).isSome then
      registerLoop userKey connectionsOnUserKey acc rest
    else
      let cid := acc.1.nextCorrelationId
      registerLoop userKey connectionsOnUserKey
        ({ acc.1 with
            nextCorrelationId := cid + 1,
            events := acc.1.events ++ [LAction.invokeRegister userKey c cid] },
         acc.2 ++ [(c, cid)]) rest

/-- Synchronous part of `ListenerService.registerListener` (part_001 lines
123-167): creates the table entries when the userKey is new, then issues
one register invocation per call-time active connection not already
tracked; the returned promise is still pending. -/
def registerListenerSync (s0 : LSState) (userKey : String) (codec : ListenerMessageCodec)
    (handlerId : Nat) (isSmart : Bool) (activeConnections : List Nat) : RegisterCall :=
  let registerRequest := codec.encodeAddRequest isSmart
  let pre := alookup s0.activeRegistrations userKey
  let connectionsOnUserKey := pre.getD []
  let s1 : LSState :=
    match pre with
    | some _ => s0
    | none =>
      { s0 with
        activeRegistrations := aset s0.activeRegistrations userKey [],
        userKeyInformation :=
          aset s0.userKeyInformation userKey ⟨userKey, codec, registerRequest, handlerId⟩ }
  let r := registerLoop userKey connectionsOnUserKey (s1, []) activeConnections
  ⟨r.1, userKey, codec, DeferredState.pending, r.2, []⟩

/-- The per-connection success continuation of `registerListener`
(part_001 lines 146-155): stores the new `ClientEventRegistration` in the
per-key map (a no-op on the tables when the map was detached by a
concurrent deregistration) and then resolves the promise with the
userKey. -/
def registerSuccessCompletion (call : RegisterCall) (connId : Nat)
    (responseRegistrationId : Nat) (correlationId : Nat) : RegisterCall :=
  let reg : ClientEventRegistration := ⟨responseRegistrationId, correlationId, connId, call.codec⟩
  let s := call.state
  let s1 : LSState :=
    match alookup s.activeRegistrations call.userKey with
    | some regs =>
      { s with activeRegistrations := aset s.activeRegistrations call.userKey (aset regs connId reg) }
    | none => s
  { call with
    state := s1,
    deferred := call.deferred.resolve call.userKey,
    completedAttempts := call.completedAttempts ++ [connId] }

/-- The per-connection `.catch` continuation of `registerListener`
(part_001 lines 156-164): when the failing connection is still alive the
whole userKey is deregistered (full rollback) and the promise rejected;
otherwise nothing happens. -/
def registerFailureCompletion (call : RegisterCall) (connId : Nat)
    (connectionAlive : Bool) : RegisterCall :=
  if connectionAlive then
    { call with
      state := (deregisterListener call.state call.userKey).1,
      deferred := call.deferred.reject "Listener cannot be added!",
      completedAttempts := call.completedAttempts ++ [connId] }
  else
    { call with completedAttempts := call.completedAttempts ++ [connId] }

/-- Remote errors observed by the `.catch` handler of
`deregisterListenerOnTarget`. -/
inductive RemoteError where
  | clientNotActive
  | ioError
  | targetDisconnected
  | generic (msg : String)
deriving DecidableEq, Repr

/-- What the `.catch` handler did with a remote failure. -/
inductive CleanupOutcome where
  | silentlyIgnored
  | warningLogged
deriving DecidableEq, Repr

/-- The connectivity error classes of the source's `instanceof` chain
(part_001 lines 206-208). -/
def isConnectivityError : RemoteError → Bool
  | RemoteError.clientNotActive => true
  | RemoteError.ioError => true
  | RemoteError.targetDisconnected => true
  | RemoteError.generic _ => false

/-- The `.catch` handler of `deregisterListenerOnTarget` (part_001 lines
205-214): connectivity errors return silently, anything else logs a
warning; an `Except.error` result would mean rethrowing, which the handler
never does. -/
def deregisterOnTargetCatchHandler : RemoteError → Except RemoteError CleanupOutcome
  | RemoteError.clientNotActive => Except.ok CleanupOutcome.silentlyIgnored
  | RemoteError.ioError => Except.ok CleanupOutcome.silentlyIgnored
  | RemoteError.targetDisconnected => Except.ok CleanupOutcome.silentlyIgnored
  | RemoteError.generic _ => Except.ok CleanupOutcome.warningLogged

/-- The actions emitted by one `deregisterListener` call, in order. -/
def deregTrace (s : LSState) (userKey : String) : List LAction :=
  (deregisterListener s userKey).1.events.drop s.events.length

def LAction.isLocalCleanup : LAction → Bool
  | LAction.deleteActive _ => true
  | LAction.deleteUserKeyInfo _ => true
  | LAction.removeEventHandler _ => true
  | _ => false

/-- Every local-bookkeeping action precedes every remote remove
invocation: after any `invokeRemove` no local cleanup action follows. -/
def localCleanupPrecedesRemoteRequests : List LAction → Bool
  | [] => true
  | LAction.invokeRemove _ :: rest =>
    rest.all (fun a => !a.isLocalCleanup) && localCleanupPrecedesRemoteRequests rest
  | _ :: rest => localCleanupPrecedesRemoteRequests rest

/-- Every remote remove invocation is preceded by the event-handler
removal of the same registration (`seen` holds the correlation ids whose
handlers were removed so far). -/
def handlerPrecedesOwnRemote (seen : List Nat) : List LAction → Bool
  | [] => true
  | LAction.removeEventHandler cid :: rest => handlerPrecedesOwnRemote (cid :: seen) rest
  | LAction.invokeRemove reg :: rest =>
    seen.contains reg.correlationId && handlerPrecedesOwnRemote seen rest
  | _ :: rest => handlerPrecedesOwnRemote seen rest

/-! ## Association-list lemmas -/

theorem alookup_aset_self {κ α : Type} [DecidableEq κ] (l : List (κ × α)) (k : κ) (v : α) :
    alookup (aset l k v) k = some v := by
  induction l with
  | nil => simp [aset, alookup]
  | cons p rest ih =>
    by_cases h : p.1 = k
    · simp [aset, h, alookup]
    · simp [aset, h, alookup, ih]

theorem alookup_adelete_self {κ α : Type} [DecidableEq κ] (l : List (κ × α)) (k : κ) :
    alookup (adelete l k) k = none := by
  induction l with
  | nil => rfl
  | cons p rest ih =>
    by_cases h : p.1 = k
    · simpa [adelete, List.filter_cons, h] using ih
    · simpa [adelete, List.filter_cons, h, alookup] using ih

theorem aset_of_alookup_none {κ α : Type} [DecidableEq κ] (l : List (κ × α)) (k : κ) (v : α)
    (h : alookup l k = none) : aset l k v = l ++ [(k, v)] := by
  induction l with
  | nil => rfl
  | cons p rest ih =>
    by_cases hp : p.1 = k
    · simp [alookup, hp] at h
    · simp only [alookup, hp, if_false, if_neg hp] at h ⊢
      simp [aset, hp, ih h]

/-! ## Event-log structure of the deregistration path -/

/-- The actions emitted by one `deregisterListenerOnTarget` call. -/
def dlotEmit (userKey : String) (reg : ClientEventRegistration) : List LAction :=
  LAction.removeAttempt userKey reg ::
    (match reg.codec.encodeRemoveRequest reg.serverRegistrationId with
     | none => []
     | some _ => [LAction.invokeRemove reg])

theorem dlot_events (s : LSState) (uk : String) (reg : ClientEventRegistration) :
    (deregisterListenerOnTarget s uk reg).events = s.events ++ dlotEmit uk reg := by
  unfold deregisterListenerOnTarget dlotEmit
  cases h : reg.codec.encodeRemoveRequest reg.serverRegistrationId <;> simp [h]

theorem dlot_activeRegistrations (s : LSState) (uk : String) (reg : ClientEventRegistration) :
    (deregisterListenerOnTarget s uk reg).activeRegistrations = s.activeRegistrations := by
  unfold deregisterListenerOnTarget
  cases h : reg.codec.encodeRemoveRequest reg.serverRegistrationId <;> simp [h]

theorem dlot_userKeyInformation (s : LSState) (uk : String) (reg : ClientEventRegistration) :
    (deregisterListenerOnTarget s uk reg).userKeyInformation = s.userKeyInformation := by
  unfold deregisterListenerOnTarget
  cases h : reg.codec.encodeRemoveRequest reg.serverRegistrationId <;> simp [h]

theorem removeAttempt_mem_dlotEmit (uk : String) (reg : ClientEventRegistration) :
    LAction.removeAttempt uk reg ∈ dlotEmit uk reg :=
  List.mem_cons_self _ _

/-- The actions emitted by the `deregisterListener` per-registration loop. -/
def loopEmit (userKey : String) : List (Nat × ClientEventRegistration) → List LAction
  | [] => []
  | p :: rest =>
    LAction.removeEventHandler p.2.correlationId ::
      (dlotEmit userKey p.2 ++ loopEmit userKey rest)

theorem deregLoop_cons (uk : String) (s : LSState) (p : Nat × ClientEventRegistration)
    (rest : List (Nat × ClientEventRegistration)) :
    deregLoop uk s (p :: rest) =
      deregLoop uk
        (deregisterListenerOnTarget (removeEventHandler s p.2.correlationId) uk p.2) rest :=
  rfl

theorem deregLoop_events (uk : String) (l : List (Nat × ClientEventRegistration)) :
    ∀ s : LSState, (deregLoop uk s l).events = s.events ++ loopEmit uk l := by
  induction l with
  | nil => intro s; simp [deregLoop, loopEmit]
  | cons p rest ih =>
    intro s
    rw [deregLoop_cons, ih, dlot_events, loopEmit]
    simp [removeEventHandler]

theorem deregLoop_activeRegistrations (uk : String) (l : List (Nat × ClientEventRegistration)) :
    ∀ s : LSState, (deregLoop uk s l).activeRegistrations = s.activeRegistrations := by
  induction l with
  | nil => intro s; simp [deregLoop]
  | cons p rest ih =>
    intro s
    rw [deregLoop_cons, ih, dlot_activeRegistrations]
    rfl

theorem deregLoop_userKeyInformation (uk : String) (l : List (Nat × ClientEventRegistration)) :
    ∀ s : LSState, (deregLoop uk s l).userKeyInformation = s.userKeyInformation := by
  induction l with
  | nil => intro s; simp [deregLoop]
  | cons p rest ih =>
    intro s
    rw [deregLoop_cons, ih, dlot_userKeyInformation]
    rfl

theorem removeAttempt_mem_loopEmit (uk : String) (l : List (Nat × ClientEventRegistration))
    (p : Nat × ClientEventRegistration) (hp : p ∈ l) :
    LAction.removeAttempt uk p.2 ∈ loopEmit uk l := by
  induction l with
  | nil => cases hp
  | cons q rest ih =>
    rcases List.mem_cons.1 hp with hq | hrest
    · subst hq
      exact List.mem_cons_of_mem _ (List.mem_append_left _ (removeAttempt_mem_dlotEmit uk p.2))
    · exact List.mem_cons_of_mem _ (List.mem_append_right _ (ih hrest))

theorem deregisterListener_found (s : LSState) (uk : String)
    (m : List (Nat × ClientEventRegistration))
    (h : alookup s.activeRegistrations uk = some m) :
    deregisterListener s uk =
      (deregLoop uk
        { s with
          activeRegistrations := adelete s.activeRegistrations uk,
          userKeyInformation := adelete s.userKeyInformation uk,
          events := s.events ++ [LAction.deleteActive uk, LAction.deleteUserKeyInfo uk] } m,
       true) := by
  unfold deregisterListener
  rw [h]

theorem dereg_activeRegistrations (s : LSState) (uk : String)
    (m : List (Nat × ClientEventRegistration))
    (h : alookup s.activeRegistrations uk = some m) :
    (deregisterListener s uk).1.activeRegistrations = adelete s.activeRegistrations uk := by
  rw [deregisterListener_found s uk m h]
  exact deregLoop_activeRegistrations uk m _

theorem dereg_userKeyInformation (s : LSState) (uk : String)
    (m : List (Nat × ClientEventRegistration))
    (h : alookup s.activeRegistrations uk = some m) :
    (deregisterListener s uk).1.userKeyInformation = adelete s.userKeyInformation uk := by
  rw [deregisterListener_found s uk m h]
  exact deregLoop_userKeyInformation uk m _

theorem dereg_events (s : LSState) (uk : String)
    (m : List (Nat × ClientEventRegistration))
    (h : alookup s.activeRegistrations uk = some m) :
    (deregisterListener s uk).1.events =
      s.events ++ (LAction.deleteActive uk :: LAction.deleteUserKeyInfo uk :: loopEmit uk m) := by
  rw [deregisterListener_found s uk m h, deregLoop_events]
  simp

theorem deregTrace_found (s : LSState) (uk : String)
    (m : List (Nat × ClientEventRegistration))
    (h : alookup s.activeRegistrations uk = some m) :
    deregTrace s uk =
      LAction.deleteActive uk :: LAction.deleteUserKeyInfo uk :: loopEmit uk m := by
  unfold deregTrace
  rw [dereg_events s uk m h, List.drop_left]

theorem handlerPrecedesOwnRemote_loopEmit (uk : String)
    (m : List (Nat × ClientEventRegistration)) :
    ∀ seen : List Nat, handlerPrecedesOwnRemote seen (loopEmit uk m) = true := by
  induction m with
  | nil => intro seen; rfl
  | cons p rest ih =>
    intro seen
    cases hc : p.2.codec.encodeRemoveRequest p.2.serverRegistrationId <;>
      simp [loopEmit, dlotEmit, hc, handlerPrecedesOwnRemote, ih]

/-! ## Loop lemmas for registration paths -/

theorem registerLoop_issued_not_tracked (uk : String)
    (m : List (Nat × ClientEventRegistration)) :
    ∀ (conns : List Nat) (acc : LSState × List (Nat × Nat)),
      (∀ q ∈ acc.2, alookup m q.1 = none) →
      ∀ q ∈ (registerLoop uk m acc conns).2, alookup m q.1 = none := by
  intro conns
  induction conns with
  | nil => intro acc hacc q hq; exact hacc q hq
  | cons c rest ih =>
    intro acc hacc q hq
    by_cases hc : (alookup m c).isSome
    · rw [registerLoop, if_pos hc] at hq
      exact ih acc hacc q hq
    · rw [registerLoop, if_neg hc] at hq
      refine ih _ ?_ q hq
      intro q' hq'
      rcases List.mem_append.1 hq' with h1 | h2
      · exact hacc q' h1
      · have hq2 : q' = (c, acc.1.nextCorrelationId) := by simpa using h2
        rw [hq2]
        exact Option.not_isSome_iff_eq_none.1 hc

theorem registerLoop_issued_all (uk : String) :
    ∀ (conns : List Nat) (acc : LSState × List (Nat × Nat)),
      (registerLoop uk [] acc conns).2.map Prod.fst = acc.2.map Prod.fst ++ conns := by
  intro conns
  induction conns with
  | nil => intro acc; simp [registerLoop]
  | cons c rest ih =>
    intro acc
    have hc : (alookup ([] : List (Nat × ClientEventRegistration)) c).isSome = false := rfl
    rw [registerLoop, if_neg (by simp [hc]), ih]
    simp

theorem invokeRegistrationFromRecordSync_events (s : LSState) (uk : String) (c : Nat) :
    (invokeRegistrationFromRecordSync s uk c).1.events = s.events ∨
      (invokeRegistrationFromRecordSync s uk c).1.events =
        s.events ++ [LAction.invokeRegister uk c s.nextCorrelationId] := by
  unfold invokeRegistrationFromRecordSync
  cases h1 : (alookup s.activeRegistrations uk).bind (fun regs => alookup regs c) with
  | some reg => exact Or.inl rfl
  | none =>
    cases h2 : alookup s.userKeyInformation uk with
    | none => exact Or.inl rfl
    | some rk => exact Or.inr rfl

theorem reregisterLoop_invokeRegister_mem (connId : Nat) (uk : String) (cid : Nat) :
    ∀ (l : List (String × List (Nat × ClientEventRegistration)))
      (acc : LSState × List (String × RegInvokeSyncResult)),
      LAction.invokeRegister uk connId cid ∈ (reregisterLoop connId acc l).1.events →
      LAction.invokeRegister uk connId cid ∈ acc.1.events ∨
        ∃ m, (uk, m) ∈ l ∧ alookup m connId = none := by
  intro l
  induction l with
  | nil => intro acc h; exact Or.inl h
  | cons p rest ih =>
    intro acc h
    by_cases hc : (alookup p.2 connId).isSome
    · rw [reregisterLoop, if_pos hc] at h
      rcases ih _ h with h1 | ⟨m, hm, hmn⟩
      · exact Or.inl h1
      · exact Or.inr ⟨m, List.mem_cons_of_mem _ hm, hmn⟩
    · rw [reregisterLoop, if_neg hc] at h
      rcases ih _ h with h1 | ⟨m, hm, hmn⟩
      · rcases invokeRegistrationFromRecordSync_events acc.1 p.1 connId with he | he
        · rw [he] at h1
          exact Or.inl h1
        · rw [he] at h1
          rcases List.mem_append.1 h1 with h2 | h2
          · exact Or.inl h2
          · have h3 : uk = p.1 := by
              simp [LAction.invokeRegister.injEq] at h2
              exact h2.1
            refine Or.inr ⟨p.2, ?_, Option.not_isSome_iff_eq_none.1 hc⟩
            rw [h3]
            exact List.mem_cons_self _ _
      · exact Or.inr ⟨m, List.mem_cons_of_mem _ hm, hmn⟩

/-! ## Concrete states used as witnesses and counterexamples -/

def exCodec : ListenerMessageCodec := ⟨5, 55, true⟩

def exReg1 : ClientEventRegistration := ⟨101, 11, 1, exCodec⟩

def exReg2 : ClientEventRegistration := ⟨102, 12, 2, exCodec⟩

def exReg3 : ClientEventRegistration := ⟨103, 13, 3, exCodec⟩

def exRegKey : RegistrationKey := ⟨"k", exCodec, 55, 9⟩

def exState : LSState :=
  ⟨[("k", [(1, exReg1), (2, exReg2)])], [("k", exRegKey)], 20, []⟩

def emptyLSState : LSState := ⟨[], [], 0, []⟩

/-- `registerListener` started on two call-time connections. -/
def c5Call : RegisterCall := registerListenerSync emptyLSState "u" exCodec 7 true [1, 2]

/-- The success continuation for the first connection only has run. -/
def c5AfterFirst : RegisterCall := registerSuccessCompletion c5Call 1 201 0

/-! ## Claim theorems -/

/-- Claim C3, counterexample: with two physical registrations carrying
remove-requests, the `deregisterListener` trace removes the second
registration's event handler after the first registration's remote
remove-request has been issued, so not every local-bookkeeping removal
happens before every remote deregister request. -/
theorem c3_counterexample :
    localCleanupPrecedesRemoteRequests (deregTrace exState "k") = false := by
  decide

/-- Claim C3 (amended): in every `deregisterListener` execution that finds
an active registration, the two tracking-table entries are removed first,
before everything else, and each physical registration's event handler is
removed before the remote deregister request for that same registration is
issued (handler removal for a later registration may follow the remote
request for an earlier one). -/
theorem c3_local_before_remote (s : LSState) (uk : String)
    (m : List (Nat × ClientEventRegistration))
    (h : alookup s.activeRegistrations uk = some m) :
    (deregTrace s uk).take 2 = [LAction.deleteActive uk, LAction.deleteUserKeyInfo uk]
      ∧ handlerPrecedesOwnRemote [] (deregTrace s uk) = true := by
  rw [deregTrace_found s uk m h]
  refine ⟨rfl, ?_⟩
  simp [handlerPrecedesOwnRemote, handlerPrecedesOwnRemote_loopEmit]

/-- Witness for C3 (amended) at a concrete two-registration state. -/
theorem c3_local_before_remote_witness :
    alookup exState.activeRegistrations "k" = some [(1, exReg1), (2, exReg2)]
      ∧ ((deregTrace exState "k").take 2 =
            [LAction.deleteActive "k", LAction.deleteUserKeyInfo "k"]
          ∧ handlerPrecedesOwnRemote [] (deregTrace exState "k") = true) :=
  ⟨by decide, c3_local_before_remote exState "k" [(1, exReg1), (2, exReg2)] (by decide)⟩

/-- Claim C4, code evaluation at the failing input: with registrations on
connections 1 and 2, `removeRegistrationsOnConnection 1` removes the event
handler for connection 1's correlation id and issues no remote request,
but both per-connection records are still stored afterwards — the source
never drops the record, where the claim (and the spec scenario) expects
exactly one stored registration to remain. -/
theorem c4_record_not_dropped :
    alookup (removeRegistrationsOnConnection exState 1).activeRegistrations "k" =
        some [(1, exReg1), (2, exReg2)]
      ∧ (removeRegistrationsOnConnection exState 1).events =
        [LAction.removeEventHandler 11] := by
  decide

/-- Claim C5, counterexample: `registerListener` with two call-time
connections resolves with the userKey as soon as the first connection's
register attempt succeeds, while the attempt issued for connection 2 has
not yet completed — refuting that it resolves only after the request has
been attempted on every call-time connection. -/
theorem c5_counterexample :
    c5AfterFirst.deferred = DeferredState.resolved "u"
      ∧ (2, 1) ∈ c5AfterFirst.issued
      ∧ 2 ∉ c5AfterFirst.completedAttempts := by
  decide

/-- Claim C5 (amended): `registerListenerSync` issues one register attempt
for every call-time connection of a fresh userKey, and the per-connection
success continuation resolves the still-pending promise with the userKey
as soon as it runs — so the call resolves on the first success, possibly
while attempts on other call-time connections are still outstanding. -/
theorem c5_resolves_on_first_success :
    (∀ (call : RegisterCall) (connId respId cid : Nat),
        call.deferred = DeferredState.pending →
        (registerSuccessCompletion call connId respId cid).deferred =
          DeferredState.resolved call.userKey)
      ∧ (∀ (s : LSState) (uk : String) (codec : ListenerMessageCodec) (hid : Nat)
          (sm : Bool) (conns : List Nat),
          alookup s.activeRegistrations uk = none →
          (registerListenerSync s uk codec hid sm conns).issued.map Prod.fst = conns) := by
  constructor
  · intro call connId respId cid h
    unfold registerSuccessCompletion
    cases hm : alookup call.state.activeRegistrations call.userKey <;>
      simp [hm, DeferredState.resolve, h]
  · intro s uk codec hid sm conns h
    unfold registerListenerSync
    rw [h]
    simpa using registerLoop_issued_all uk conns _

/-- Witness for C5 (amended) at the concrete two-connection call. -/
theorem c5_resolves_on_first_success_witness :
    (c5Call.deferred = DeferredState.pending →
        (registerSuccessCompletion c5Call 1 201 0).deferred = DeferredState.resolved "u")
      ∧ (registerListenerSync emptyLSState "u" exCodec 7 true [1, 2]).issued.map Prod.fst =
        [1, 2] :=
  ⟨fun h => c5_resolves_on_first_success.1 c5Call 1 201 0 h,
   c5_resolves_on_first_success.2 emptyLSState "u" exCodec 7 true [1, 2] (by decide)⟩

/-- Claim C7: the `.catch` handler of the remote deregister invocation
silently ignores the three connectivity error classes, logs a warning for
every other error, never rethrows (so nothing propagates to the caller of
`deregisterListener`), and a null remove-request message causes no remote
invocation at all. -/
theorem c7_cleanup_errors_absorbed :
    (∀ e, isConnectivityError e = true →
        deregisterOnTargetCatchHandler e = Except.ok CleanupOutcome.silentlyIgnored)
      ∧ (∀ e, isConnectivityError e = false →
          deregisterOnTargetCatchHandler e = Except.ok CleanupOutcome.warningLogged)
      ∧ (∀ e, (deregisterOnTargetCatchHandler e).isOk = true)
      ∧ (∀ (s : LSState) (uk : String) (reg : ClientEventRegistration),
          reg.codec.hasRemoveRequest = false →
          (deregisterListenerOnTarget s uk reg).events =
            s.events ++ [LAction.removeAttempt uk reg]) := by
  refine ⟨?_, ?_, ?_, ?_⟩
  · intro e h
    cases e <;> simp_all [isConnectivityError, deregisterOnTargetCatchHandler]
  · intro e h
    cases e <;> simp_all [isConnectivityError, deregisterOnTargetCatchHandler]
  · intro e
    cases e <;> rfl
  · intro s uk reg h
    unfold deregisterListenerOnTarget
    simp [ListenerMessageCodec.encodeRemoveRequest, h]

/-- Witness for C7 at concrete errors and a codec without a remote
remove-request. -/
theorem c7_cleanup_errors_absorbed_witness :
    deregisterOnTargetCatchHandler RemoteError.ioError =
        Except.ok CleanupOutcome.silentlyIgnored
      ∧ deregisterOnTargetCatchHandler (RemoteError.generic "boom") =
        Except.ok CleanupOutcome.warningLogged
      ∧ (deregisterListenerOnTarget emptyLSState "k" ⟨104, 14, 1, ⟨6, 66, false⟩⟩).events =
        [LAction.removeAttempt "k" ⟨104, 14, 1, ⟨6, 66, false⟩⟩] :=
  ⟨c7_cleanup_errors_absorbed.1 RemoteError.ioError (by decide),
   c7_cleanup_errors_absorbed.2.1 (RemoteError.generic "boom") (by decide),
   c7_cleanup_errors_absorbed.2.2.2 emptyLSState "k" ⟨104, 14, 1, ⟨6, 66, false⟩⟩ (by decide)⟩

/-- Claim C8: `RingbufferProxy.readMany` returns a `RangeError` before any
request is encoded or invocation is built whenever `minCount > maxCount`,
the sequence is negative, or `minCount` is negative. -/
theorem c8_readMany_validation (sequence minCount maxCount : Int)
    (h : minCount > maxCount ∨ sequence < 0 ∨ minCount < 0) :
    ∃ msg, RingbufferProxy.readMany sequence minCount maxCount = Except.error msg := by
  unfold RingbufferProxy.readMany
  split_ifs with h1 h2 h3
  · exact ⟨_, rfl⟩
  · exact ⟨_, rfl⟩
  · exact ⟨_, rfl⟩
  · rcases h with h | h | h <;> omega

/-- Witness for C8 at the spec scenario `minCount = 5, maxCount = 3`. -/
theorem c8_readMany_validation_witness :
    ((5 : Int) > 3 ∨ (0 : Int) < 0 ∨ (5 : Int) < 0)
      ∧ ∃ msg, RingbufferProxy.readMany 0 5 3 = Except.error msg :=
  ⟨Or.inl (by decide), c8_readMany_validation 0 5 3 (Or.inl (by decide))⟩

/-- Claim C9: for all arguments, `AtomicLongAlterCodec.encodeRequest`
produces a message with the documented request type `0x090200` (590336),
the retryable flag set to `false` at encode time, and partition id `-1`
(any member). -/
theorem c9_atomicLongAlter_encodeRequest (groupId : RaftGroupId) (name : String)
    (_function : Data) (returnValueType : Nat) :
    (AtomicLongAlterCodec.encodeRequest groupId name _function returnValueType).messageType =
        590336
      ∧ (AtomicLongAlterCodec.encodeRequest groupId name _function returnValueType).retryable =
        false
      ∧ (AtomicLongAlterCodec.encodeRequest groupId name _function returnValueType).partitionId =
        -1 :=
  ⟨rfl, rfl, rfl⟩

/-- Claim C10: `BaseCPProxy.getPartitionKey` throws
`UnsupportedOperationError` for every CP Subsystem proxy. -/
theorem c10_cp_getPartitionKey_unsupported (p : BaseCPProxy) :
    p.getPartitionKey =
      Except.error (CPProxyError.unsupportedOperation
        "This operation is not supported by CP Subsystem") :=
  rfl

/-- Claim C1: for both interleavings of a `deregisterListener(userKey)`
with an in-flight `connectionAdded` reregistration for that userKey, every
physical registration — the previously stored ones and the just-created
one — receives a remote removal attempt, and the just-created one is never
left stored: if the completion runs after the deregistration it skips the
store and immediately issues the remote remove-request (whenever the codec
defines one, i.e. whenever a remote registration exists); if it runs
before, the stored registration is torn down by the deregistration. -/
theorem c1_reregister_deregister_race_no_leak
    (s : LSState) (uk : String) (connId : Nat) (reg : ClientEventRegistration)
    (rk : RegistrationKey) (m : List (Nat × ClientEventRegistration))
    (huki : alookup s.userKeyInformation uk = some rk)
    (hact : alookup s.activeRegistrations uk = some m)
    (hconn : alookup m connId = none) :
    (alookup (reregisterCompletion (deregisterListener s uk).1 uk connId reg).activeRegistrations
          uk = none
      ∧ LAction.removeAttempt uk reg ∈
          (reregisterCompletion (deregisterListener s uk).1 uk connId reg).events
      ∧ (reg.codec.hasRemoveRequest = true →
          LAction.invokeRemove reg ∈
            (reregisterCompletion (deregisterListener s uk).1 uk connId reg).events)
      ∧ ∀ p ∈ m, LAction.removeAttempt uk p.2 ∈
          (reregisterCompletion (deregisterListener s uk).1 uk connId reg).events)
    ∧ (alookup (deregisterListener (reregisterCompletion s uk connId reg) uk).1.activeRegistrations
          uk = none
      ∧ LAction.removeAttempt uk reg ∈
          (deregisterListener (reregisterCompletion s uk connId reg) uk).1.events
      ∧ ∀ p ∈ m, LAction.removeAttempt uk p.2 ∈
          (deregisterListener (reregisterCompletion s uk connId reg) uk).1.events) := by
  have hduki : alookup (deregisterListener s uk).1.userKeyInformation uk = none := by
    rw [dereg_userKeyInformation s uk m hact]
    exact alookup_adelete_self _ _
  have hB : reregisterCompletion (deregisterListener s uk).1 uk connId reg =
      deregisterListenerOnTarget (deregisterListener s uk).1 uk reg := by
    simp only [reregisterCompletion, hduki]
  have hA : reregisterCompletion s uk connId reg =
      { s with activeRegistrations := aset s.activeRegistrations uk (aset m connId reg) } := by
    simp only [reregisterCompletion, huki, hact]
  have hactA : alookup (reregisterCompletion s uk connId reg).activeRegistrations uk =
      some (aset m connId reg) := by
    rw [hA]
    exact alookup_aset_self _ _ _
  have haset : aset m connId reg = m ++ [(connId, reg)] :=
    aset_of_alookup_none m connId reg hconn
  refine ⟨⟨?_, ?_, ?_, ?_⟩, ⟨?_, ?_, ?_⟩⟩
  · rw [hB, dlot_activeRegistrations, dereg_activeRegistrations s uk m hact]
    exact alookup_adelete_self _ _
  · rw [hB, dlot_events]
    exact List.mem_append_right _ (removeAttempt_mem_dlotEmit uk reg)
  · intro hR
    have hsome : reg.codec.encodeRemoveRequest reg.serverRegistrationId =
        some (reg.codec.codecId, reg.serverRegistrationId) := by
      simp [ListenerMessageCodec.encodeRemoveRequest, hR]
    rw [hB, dlot_events]
    refine List.mem_append_right _ ?_
    simp [dlotEmit, hsome]
  · intro p hp
    rw [hB, dlot_events]
    refine List.mem_append_left _ ?_
    rw [dereg_events s uk m hact]
    refine List.mem_append_right _ ?_
    exact List.mem_cons_of_mem _
      (List.mem_cons_of_mem _ (removeAttempt_mem_loopEmit uk m p hp))
  · rw [dereg_activeRegistrations _ uk (aset m connId reg) hactA]
    exact alookup_adelete_self _ _
  · rw [dereg_events _ uk (aset m connId reg) hactA]
    refine List.mem_append_right _ ?_
    refine List.mem_cons_of_mem _ (List.mem_cons_of_mem _ ?_)
    refine removeAttempt_mem_loopEmit uk _ (connId, reg) ?_
    rw [haset]
    exact List.mem_append_right _ (List.mem_singleton.2 rfl)
  · intro p hp
    rw [dereg_events _ uk (aset m connId reg) hactA]
    refine List.mem_append_right _ ?_
    refine List.mem_cons_of_mem _ (List.mem_cons_of_mem _ ?_)
    refine removeAttempt_mem_loopEmit uk _ p ?_
    rw [haset]
    exact List.mem_append_left _ hp

/-- Witness for C1 at a concrete state: a deregistered userKey and a
reregistration completion landing afterwards. -/
theorem c1_reregister_deregister_race_no_leak_witness :
    alookup [(1, exReg1), (2, exReg2)] 3 = none
      ∧ LAction.removeAttempt "k" exReg3 ∈
          (reregisterCompletion (deregisterListener exState "k").1 "k" 3 exReg3).events :=
  ⟨by decide,
   (c1_reregister_deregister_race_no_leak exState "k" 3 exReg3 exRegKey
      [(1, exReg1), (2, exReg2)] (by decide) (by decide) (by decide)).1.2.1⟩

/-- Claim C2: the three mechanisms that prevent a second live physical
registration for one (userKey, connection) pair: the `registerListener`
loop only issues invocations for connections absent from the pre-existing
per-key map; every register invocation issued by
`reregisterListenersOnConnection` is for a logical registration whose map
does not track the connection; and `invokeRegistrationFromRecord` resolves
with the stored `ClientEventRegistration`, issuing nothing, when one
exists. -/
theorem c2_never_two_live_registrations :
    (∀ (s : LSState) (uk : String) (codec : ListenerMessageCodec) (hid : Nat) (sm : Bool)
        (conns : List Nat) (m : List (Nat × ClientEventRegistration)),
        alookup s.activeRegistrations uk = some m →
        ∀ q ∈ (registerListenerSync s uk codec hid sm conns).issued, alookup m q.1 = none)
      ∧ (∀ (s : LSState) (connId : Nat) (uk : String) (cid : Nat),
          LAction.invokeRegister uk connId cid ∈
            (reregisterListenersOnConnection s connId).1.events →
          LAction.invokeRegister uk connId cid ∈ s.events ∨
            ∃ m, (uk, m) ∈ s.activeRegistrations ∧ alookup m connId = none)
      ∧ (∀ (s : LSState) (uk : String) (connId : Nat)
          (regs : List (Nat × ClientEventRegistration)) (reg : ClientEventRegistration),
          alookup s.activeRegistrations uk = some regs → alookup regs connId = some reg →
          invokeRegistrationFromRecordSync s uk connId =
            (s, RegInvokeSyncResult.resolvedExisting reg)) := by
  refine ⟨?_, ?_, ?_⟩
  · intro s uk codec hid sm conns m h q hq
    simp only [registerListenerSync, h, Option.getD] at hq
    exact registerLoop_issued_not_tracked uk m conns (s, [])
      (by intro q' hq'; cases hq') q hq
  · intro s connId uk cid h
    exact reregisterLoop_invokeRegister_mem connId uk cid s.activeRegistrations (s, []) h
  · intro s uk connId regs reg h1 h2
    simp [invokeRegistrationFromRecordSync, h1, h2]

/-- Witness for C2: a stored (userKey, connection) pair resolves from the
record without a new invocation. -/
theorem c2_never_two_live_registrations_witness :
    alookup exState.activeRegistrations "k" = some [(1, exReg1), (2, exReg2)]
      ∧ invokeRegistrationFromRecordSync exState "k" 1 =
        (exState, RegInvokeSyncResult.resolvedExisting exReg1) :=
  ⟨by decide,
   c2_never_two_live_registrations.2.2 exState "k" 1 [(1, exReg1), (2, exReg2)] exReg1
     (by decide) (by decide)⟩

/-- Claim C6: when a register attempt fails on a still-alive connection,
the `.catch` continuation performs a full rollback — both tracking-table
entries for the userKey are gone, every previously stored physical
registration receives a remote removal attempt — and rejects the pending
promise; when the failed connection is no longer alive, neither the state
nor the promise changes. -/
theorem c6_rollback_on_alive_failure :
    (∀ (call : RegisterCall) (connId : Nat) (m : List (Nat × ClientEventRegistration)),
        alookup call.state.activeRegistrations call.userKey = some m →
        alookup (registerFailureCompletion call connId true).state.activeRegistrations
            call.userKey = none
          ∧ alookup (registerFailureCompletion call connId true).state.userKeyInformation
              call.userKey = none
          ∧ (∀ p ∈ m, LAction.removeAttempt call.userKey p.2 ∈
              (registerFailureCompletion call connId true).state.events)
          ∧ (call.deferred = DeferredState.pending →
              (registerFailureCompletion call connId true).deferred =
                DeferredState.rejected "Listener cannot be added!"))
      ∧ (∀ (call : RegisterCall) (connId : Nat),
          (registerFailureCompletion call connId false).state = call.state
            ∧ (registerFailureCompletion call connId false).deferred = call.deferred) := by
  constructor
  · intro call connId m h
    refine ⟨?_, ?_, ?_, ?_⟩
    · show alookup (deregisterListener call.state call.userKey).1.activeRegistrations
          call.userKey = none
      rw [dereg_activeRegistrations _ _ m h]
      exact alookup_adelete_self _ _
    · show alookup (deregisterListener call.state call.userKey).1.userKeyInformation
          call.userKey = none
      rw [dereg_userKeyInformation _ _ m h]
      exact alookup_adelete_self _ _
    · intro p hp
      show LAction.removeAttempt call.userKey p.2 ∈
          (deregisterListener call.state call.userKey).1.events
      rw [dereg_events _ _ m h]
      refine List.mem_append_right _ ?_
      exact List.mem_cons_of_mem _
        (List.mem_cons_of_mem _ (removeAttempt_mem_loopEmit _ m p hp))
    · intro hd
      show (call.deferred.reject "Listener cannot be added!") =
          DeferredState.rejected "Listener cannot be added!"
      rw [hd]
      rfl
  · intro call connId
    exact ⟨rfl, rfl⟩

/-- Witness for C6: a failing attempt on a live connection rolls back the
concrete two-registration state and rejects the promise. -/
theorem c6_rollback_on_alive_failure_witness :
    alookup exState.activeRegistrations "k" = some [(1, exReg1), (2, exReg2)]
      ∧ alookup (registerFailureCompletion
            ⟨exState, "k", exCodec, DeferredState.pending, [(1, 11), (2, 12)], []⟩ 2
            true).state.activeRegistrations "k" = none
      ∧ (registerFailureCompletion
            ⟨exState, "k", exCodec, DeferredState.pending, [(1, 11), (2, 12)], []⟩ 2
            true).deferred = DeferredState.rejected "Listener cannot be added!" :=
  ⟨by decide,
   (c6_rollback_on_alive_failure.1
      ⟨exState, "k", exCodec, DeferredState.pending, [(1, 11), (2, 12)], []⟩ 2
      [(1, exReg1), (2, exReg2)] (by decide)).1,
   (c6_rollback_on_alive_failure.1
      ⟨exState, "k", exCodec, DeferredState.pending, [(1, 11), (2, 12)], []⟩ 2
      [(1, exReg1), (2, exReg2)] (by decide)).2.2.2 (by decide)⟩
